import Mathlib

/-!
Verification of the cubi-tk transfer-job orchestration engine
(`cubi_tk/snappy/itransfer_common.py`, `cubi_sak/sea_snap/itransfer_mapping_results.py`,
`cubi_tk/sodar/ingest.py`) against its natural-language specification.

The Python source is shallowly embedded: pure functions become Lean functions,
filesystem and remote-API interactions become explicit oracles (`String → Option _`,
records of `Except` results), the shared `c_ulonglong` progress counter becomes a
`Nat` reduced modulo `2 ^ 64` at each increment, and exceptions become `Except`.
-/

namespace CubiTk

/-- `TransferJob` from `cubi_tk/snappy/itransfer_common.py` (attrs, frozen):
source path, destination path, byte count, optional command text. -/
structure TransferJob where
  path_src : String
  path_dest : String
  bytes : Nat
  command : Option String := none
deriving DecidableEq, Repr

/-- Sort key of an `Option String` command: `none` sorts first (the snappy variant
always has `command = None`; mixed comparisons would raise in Python).
Strings are compared as their code-point sequences, as Python does. -/
def cmdKey : Option String → WithBot (List Char)
  | none => ⊥
  | some s => (s.data : WithBot (List Char))

/-- Python sorts attrs instances by their field tuple
`(path_src, path_dest, bytes, command)`; this is the corresponding lexicographic key. -/
def jobKey (j : TransferJob) : List Char ×ₗ List Char ×ₗ ℕ ×ₗ WithBot (List Char) :=
  toLex (j.path_src.data, toLex (j.path_dest.data, toLex (j.bytes, cmdKey j.command)))

/-- The total preorder used by `sorted(transfer_jobs)`. -/
def jobLE (a b : TransferJob) : Prop := jobKey a ≤ jobKey b

instance : DecidableRel jobLE :=
  fun a b => inferInstanceAs (Decidable (jobKey a ≤ jobKey b))

instance : IsTotal TransferJob jobLE :=
  ⟨fun a b => le_total (jobKey a) (jobKey b)⟩

instance : IsTrans TransferJob jobLE :=
  ⟨fun _ _ _ h₁ h₂ => le_trans h₁ h₂⟩

/-- `tuple(sorted(transfer_jobs))`. -/
def sortJobs (l : List TransferJob) : List TransferJob := List.insertionSort jobLE l

/-- Key restricted to `(path_src, path_dest)`. -/
def pairKey (j : TransferJob) : List Char ×ₗ List Char :=
  toLex (j.path_src.data, j.path_dest.data)

/-- Nondecreasing order on jobs by `(path_src, path_dest)`. -/
def pairLE (a b : TransferJob) : Prop := pairKey a ≤ pairKey b

/-- `(source_path, dest_path)` of a job. -/
def jobPair (j : TransferJob) : String × String := (j.path_src, j.path_dest)

/-! ## Landing-zone resolution (`get_latest_landing_zone`, `get_sodar_info`) -/

/-- A SODAR landing zone as returned by `landingzone.list_` / `retrieve`. -/
structure LandingZone where
  sodar_uuid : String
  irods_path : String
  status : String
  assay : String
  date_modified : Nat
deriving DecidableEq, Repr

/-- Comparison used by `sorted(..., key=lambda x: x.date_modified, reverse=True)`:
a stably sorted, most-recently-modified-first order. -/
def zoneDescLE (a b : LandingZone) : Prop := b.date_modified ≤ a.date_modified

instance : DecidableRel zoneDescLE :=
  fun a b => inferInstanceAs (Decidable (b.date_modified ≤ a.date_modified))

instance : IsTotal LandingZone zoneDescLE :=
  ⟨fun a b => le_total b.date_modified a.date_modified⟩

instance : IsTrans LandingZone zoneDescLE :=
  ⟨fun _ _ _ h₁ h₂ => le_trans h₂ h₁⟩

/-- `SnappyItransferCommandBase.get_latest_landing_zone`: sort all zones of the
project by `date_modified` descending, filter by assay (when given), keep only
`ACTIVE`/`FAILED` zones, and return `existing_lzs[-1]` (the last element of the
descending list) — `none` when no zone is eligible. -/
def getLatestLandingZone (zones : List LandingZone) (assay_uuid : Option String) :
    Option (String × String) :=
  let sortedZones : List LandingZone := List.insertionSort zoneDescLE zones
  let assayZones : List LandingZone :=
    match assay_uuid with
    | some a => sortedZones.filter (fun x => x.assay == a)
    | none => sortedZones
  let eligible : List LandingZone :=
    assayZones.filter (fun x => x.status == "ACTIVE" || x.status == "FAILED")
  eligible.getLast?.map (fun lz => (lz.sodar_uuid, lz.irods_path))

/-- Exceptions that can escape `get_sodar_info`:
`MissingFileException`, `ParameterException`, `UserCanceledException` from
`cubi_tk.exceptions`, and `requests.exceptions.HTTPError`. -/
inductive SnappyError where
  | missingFile
  | parameter
  | userCanceled
  | http
deriving DecidableEq, Repr

/-- Remote SODAR API calls issued by `get_sodar_info` (trace alphabet). -/
inductive ApiCall where
  | listZones
  | retrieveZone
  | createZone
deriving DecidableEq, Repr

/-- Oracle for the SODAR API: results of `landingzone.list_`, `landingzone.retrieve`
(path for a landing-zone UUID) and `landingzone.create` (uuid, path).
`Except.error` models `requests.exceptions.HTTPError`. -/
structure SodarApi where
  listZones : Except Unit (List LandingZone)
  retrieveZone : String → Except Unit String
  createZone : Except Unit (String × String)

/-- `SnappyItransferCommandBase.get_sodar_info`.  `destIsUuid` is the value of
`is_uuid(destination)`; `assumeYes` is `args.yes`; `confirmUsePath` and
`confirmCreate` are the answers to the two interactive questions
(`input(...).lower().startswith("y")`).  Returns the outcome
(landing-zone uuid, iRODS path) together with the trace of remote API calls. -/
def getSodarInfo (api : SodarApi) (destIsUuid assumeYes : Bool) (destination : String)
    (assay : Option String) (confirmUsePath confirmCreate : Bool) :
    Except SnappyError (String × String) × List ApiCall :=
  if destIsUuid then
    if assumeYes then
      -- try: get_latest_landing_zone; if no path, create_landing_zone
      -- except HTTPError: raise
      match api.listZones with
      | .error _ => (.error .http, [.listZones])
      | .ok zones =>
        match getLatestLandingZone zones assay with
        | some up => (.ok up, [.listZones])
        | none =>
          match api.createZone with
          | .error _ => (.error .http, [.listZones, .createZone])
          | .ok up => (.ok up, [.listZones, .createZone])
    else
      match api.listZones with
      | .error _ =>
        -- not_project_uuid: treat destination as a landing-zone UUID
        match api.retrieveZone destination with
        | .ok p => (.ok (destination, p), [.listZones, .retrieveZone])
        | .error _ =>
          -- lz_irods_path is still None: ParameterException
          (.error .parameter, [.listZones, .retrieveZone])
      | .ok zones =>
        match getLatestLandingZone zones assay with
        | some up =>
          if confirmUsePath then (.ok up, [.listZones])
          else if confirmCreate then
            match api.createZone with
            | .error _ => (.error .http, [.listZones, .createZone])
            | .ok cup => (.ok cup, [.listZones, .createZone])
          else (.error .userCanceled, [.listZones])
        | none =>
          if confirmCreate then
            match api.createZone with
            | .error _ => (.error .http, [.listZones, .createZone])
            | .ok cup => (.ok cup, [.listZones, .createZone])
          else (.error .userCanceled, [.listZones])
  else
    -- is_uuid(destination) is false: block skipped, lz_irods_path is None
    (.error .parameter, [])

/-! ## Transfer execution (`irsync_transfer`, `SnappyItransferCommandBase.execute`) -/

/-- The shared progress counter is a `multiprocessing.Value(c_ulonglong)`:
increments wrap modulo `2 ^ 64`. -/
def U64 : Nat := 2 ^ 64

/-- `@retry(wait_fixed=1000, stop_max_attempt_number=5)`: at most 5 attempts
(the 1000 ms inter-attempt delay has no computational content). -/
def retryCeiling : Nat := 5

/-- Outcome of the retry wrapper for an attempt oracle `o` (`o k` = attempt `k`
succeeds): the call succeeds iff one of the first `retryCeiling` attempts does;
otherwise the last exception is re-raised. -/
def runRetry (o : Nat → Bool) : Bool := (List.range retryCeiling).any o

/-- `irsync_transfer` (snappy variant): `imkdir -p`, `ils` wait, `irsync -a -K`
under the retry decorator; on success the job's byte count is added once to the
shared counter (wrapping mod `2 ^ 64`).  `.error` models the `SubprocessError`
re-raised after the final failed attempt. -/
def irsyncTransfer (o : Nat → Bool) (job : TransferJob) (counter : Nat) :
    Except Unit Nat :=
  if runRetry o then .ok ((counter + job.bytes) % U64) else .error ()

/-- Observable state after a run of `execute`'s transfer loop: final counter
value, whether an exception reached the caller, and the jobs that completed
successfully, in completion order. -/
structure RunResult where
  counter : Nat
  errorRaised : Bool
  processed : List TransferJob
deriving DecidableEq, Repr

/-- `execute` with `--num-parallel-transfers 0`: jobs run strictly one at a
time, in job-set order; the first post-retry failure propagates and halts the
loop. -/
def executeSeq (orc : TransferJob → Nat → Bool) :
    List TransferJob → Nat → RunResult
  | [], c => ⟨c, false, []⟩
  | j :: js, c =>
    if runRetry (orc j) then
      let r := executeSeq orc js ((c + j.bytes) % U64)
      ⟨r.counter, r.errorRaised, j :: r.processed⟩
    else ⟨c, true, []⟩

/-- `execute` with a `ThreadPool`: every job is submitted via `apply_async`,
whose `AsyncResult` is never read, so a job's post-retry exception is stored
and discarded — `pool.join()` returns and the run continues; `schedule` is the
order in which the workers happen to complete the jobs. -/
def executePool (orc : TransferJob → Nat → Bool) (schedule : List TransferJob)
    (counter : Nat) : RunResult :=
  ⟨schedule.foldl (fun c j => if runRetry (orc j) then (c + j.bytes) % U64 else c) counter,
   false,
   schedule.filter (fun j => runRetry (orc j))⟩

/-- Total size of a job list (`sum([job.bytes for job in transfer_jobs])`). -/
def sumBytes (l : List TransferJob) : Nat := (l.map TransferJob.bytes).sum

/-! ## Blueprint mode (`cubi_sak/sea_snap/itransfer_mapping_results.py`) -/

/-- `TransferJob` of the sea-snap module: the `command` field is mandatory and
declared before `bytes` (this is the attrs field order, hence the sort order). -/
structure SeaTransferJob where
  path_src : String
  path_dest : String
  command : String
  bytes : Nat
deriving DecidableEq, Repr

/-- Field-tuple sort key `(path_src, path_dest, command, bytes)` of a sea-snap job. -/
def seaJobKey (j : SeaTransferJob) : List Char ×ₗ List Char ×ₗ List Char ×ₗ ℕ :=
  toLex (j.path_src.data, toLex (j.path_dest.data, toLex (j.command.data, j.bytes)))

/-- The total preorder used by `sorted(transfer_jobs)` in the sea-snap module. -/
def seaJobLE (a b : SeaTransferJob) : Prop := seaJobKey a ≤ seaJobKey b

instance : DecidableRel seaJobLE :=
  fun a b => inferInstanceAs (Decidable (seaJobKey a ≤ seaJobKey b))

instance : IsTotal SeaTransferJob seaJobLE :=
  ⟨fun a b => le_total (seaJobKey a) (seaJobKey b)⟩

instance : IsTrans SeaTransferJob seaJobLE :=
  ⟨fun _ _ _ h₁ h₂ => le_trans h₁ h₂⟩

/-- `tuple(sorted(transfer_jobs))` for sea-snap jobs. -/
def seaSortJobs (l : List SeaTransferJob) : List SeaTransferJob :=
  List.insertionSort seaJobLE l

/-- `irsync_transfer` of the sea-snap module: the job's command text is split
into lines and each line into an argv, but the `check_output(cmd_argv)` call in
the loop body is commented out in the source, so the loop performs no external
invocation; afterwards the job's bytes are added to the shared counter.
Returns the new counter value and the list of external commands actually run. -/
def seaIrsyncTransfer (job : SeaTransferJob) (counter : Nat) :
    Nat × List (List String) :=
  let commands := job.command.splitOn "\n"
  let executed : List (List String) :=
    commands.foldl (fun acc _cmd => acc) []
  (((counter + job.bytes) % U64), executed)

/-- The transfer loop of `SeasnapItransferMappingResultsCommand.execute`:
every job goes through `seaIrsyncTransfer`; the counter threads through and the
external-command traces are concatenated. -/
def seaExecute : List SeaTransferJob → Nat → Nat × List (List String)
  | [], c => (c, [])
  | j :: js, c =>
    let r := seaIrsyncTransfer j c
    let rest := seaExecute js r.1
    (rest.1, r.2 ++ rest.2)

/-- Total size of a sea-snap job list. -/
def seaSumBytes (l : List SeaTransferJob) : Nat := (l.map SeaTransferJob.bytes).sum

/-- Split a character list at every separator character satisfying `p`,
keeping empty pieces between consecutive separators (the semantics of
`re.split` with a single-character alternation). -/
def splitChars (p : Char → Bool) : List Char → List (List Char)
  | [] => [[]]
  | c :: cs =>
    match splitChars p cs with
    | [] => [[c]]
    | h :: t => if p c then [] :: h :: t else (c :: h) :: t

/-- Fuelled splitter on a non-empty pattern: split at every non-overlapping
occurrence, left to right (the semantics of `str.split(pat)` /
`String.splitOn`).  The fuel is an upper bound on the consumed characters. -/
def splitOnFuel (pat : List Char) : Nat → List Char → List (List Char)
  | _, [] => [[]]
  | 0, l => [l]
  | fuel + 1, c :: cs =>
    if pat.isPrefixOf (c :: cs) then
      [] :: splitOnFuel pat fuel ((c :: cs).drop pat.length)
    else
      match splitOnFuel pat fuel cs with
      | [] => [[c]]
      | h :: t => (c :: h) :: t

/-- `str.split(pat)` on character lists. -/
def splitOnL (pat l : List Char) : List (List Char) :=
  if pat = [] then [l] else splitOnFuel pat l.length l

/-- Fuelled replacement of every non-overlapping occurrence of `pat` by `rep`,
left to right (the semantics of `str.replace`). -/
def replaceFuel (pat rep : List Char) : Nat → List Char → List Char
  | _, [] => []
  | 0, l => l
  | fuel + 1, c :: cs =>
    if pat.isPrefixOf (c :: cs) then
      rep ++ replaceFuel pat rep fuel ((c :: cs).drop pat.length)
    else c :: replaceFuel pat rep fuel cs

/-- `str.replace(pat, rep)` on strings (all patterns used here are non-empty). -/
def strReplace (s pat rep : String) : String :=
  String.mk (replaceFuel pat.data rep.data s.data.length s.data)

/-- `pathlib.Path(s).suffix`: the final `"."`-suffix of the last path
component, empty when the last dot is the first or last character. -/
def pySuffix (s : String) : String :=
  let base := (splitOnL "/".data s.data).getLastD []
  let parts := splitOnL ".".data base
  let last := parts.getLastD []
  if parts.length ≥ 2 ∧ List.intercalate ".".data parts.dropLast ≠ [] ∧ last ≠ [] then
    String.mk ('.' :: last)
  else ""

/-- Filesystem oracle of the blueprint builder: maps a path to
`(st_mtime, st_size)` when `Path(p).exists()`, else `none`. -/
def SeaFS : Type := String → Option (Nat × Nat)

/-- `re.split("\n| ", cmd_block)`: split on every single newline or space. -/
def seaBlockWords (b : String) : List String :=
  (splitChars (fun c => c = '\n' || c = ' ') b.data).map String.mk

/-- `[word for word in re.split("\n| ", cmd_block) if Path(word).exists()]`. -/
def seaSourceList (fs : SeaFS) (b : String) : List String :=
  (seaBlockWords b).filter (fun w => (fs w).isSome)

/-- Maximal non-whitespace tokens of a block (the candidates for a `\S+` match). -/
def seaTokens (b : String) : List String :=
  (splitChars (fun c => c.isWhitespace) b.data).map String.mk

/-- The match of `re.findall("i:(__SODAR__/\S+)", ...)` inside one
whitespace-free token: everything after the first `"i:__SODAR__/"` occurrence
(the greedy `\S+` runs to the token's end and must be nonempty). -/
def seaTokenMatch (t : String) : Option String :=
  match splitOnL "i:__SODAR__/".data t.data with
  | [] => none
  | [_] => none
  | _ :: rest =>
    let tail := List.intercalate "i:__SODAR__/".data rest
    if tail = [] then none else some (String.mk ("__SODAR__/".data ++ tail))

/-- `re.findall("i:(__SODAR__/\S+)", cmd_block)`. -/
def seaDestList (b : String) : List String :=
  (seaTokens b).filterMap seaTokenMatch

/-- The two distinct `ValueError` raise sites of
`SeasnapItransferMappingResultsCommand.build_jobs`: the "multiple or no
source/dest files" check, and the "blueprint was created before source" check. -/
inductive SeaError where
  | validation
  | staleInput
deriving DecidableEq, Repr

/-- Processing of one command block in
`SeasnapItransferMappingResultsCommand.build_jobs`: extract the existing source
words and the `i:(__SODAR__/\S+)` destination matches, require exactly one
distinct value of each, substitute `__SODAR__`, skip `.md5` sources, fail when
the source is newer than the blueprint, and emit the data job plus its `.md5`
sidecar job. -/
def seaBuildBlock (fs : SeaFS) (irodsDest : String) (bpMtime : Nat) (b : String) :
    Except SeaError (List SeaTransferJob) :=
  let src := seaSourceList fs b
  let dst := seaDestList b
  if src.dedup.length ≠ 1 then .error .validation
  else if dst.dedup.length ≠ 1 then .error .validation
  else
    let source := src.headD ""
    let dest := strReplace (dst.headD "") "__SODAR__" irodsDest
    let cmdBlock := strReplace b "__SODAR__" irodsDest
    if pySuffix source = ".md5" then .ok []
    else
      let mtime := ((fs source).getD (0, 0)).1
      if bpMtime < mtime then .error .staleInput
      else
        .ok (["", ".md5"].map (fun ext =>
          ⟨source ++ ext, dest ++ ext,
            strReplace (strReplace cmdBlock source (source ++ ext)) dest (dest ++ ext),
            ((fs (source ++ ext)).map Prod.snd).getD 0⟩))

/-- The block loop of `build_jobs` (blueprint mode): falsy (empty) blocks are
skipped, errors abort the whole build, job lists concatenate in block order. -/
def seaBuildJobs (fs : SeaFS) (irodsDest : String) (bpMtime : Nat) :
    List String → Except SeaError (List SeaTransferJob)
  | [] => .ok []
  | b :: bs =>
    if b = "" then seaBuildJobs fs irodsDest bpMtime bs
    else
      match seaBuildBlock fs irodsDest bpMtime b with
      | .error e => .error e
      | .ok js => (seaBuildJobs fs irodsDest bpMtime bs).map (fun rest => js ++ rest)

/-- `build_jobs` (blueprint mode) including the final `tuple(sorted(...))`. -/
def seaBuildJobsAll (fs : SeaFS) (irodsDest : String) (bpMtime : Nat)
    (blocks : List String) : Except SeaError (List SeaTransferJob) :=
  (seaBuildJobs fs irodsDest bpMtime blocks).map seaSortJobs

/-! ## `cubi_tk/sodar/ingest.py` (`SodarIngest.build_file_list`, `build_jobs`) -/

/-- One entry of `build_file_list`'s output: local source path (`"spath"`) and
the iRODS path relative to the target collection (`"ipath"`). -/
structure FileEntry where
  spath : String
  ipath : String
deriving DecidableEq, Repr

/-- `pathlib.Path(s).name` for the paths occurring here: the last `/`-component. -/
def baseName (s : String) : String :=
  String.mk ((splitOnL "/".data s.data).getLastD [])

/-- `SodarIngest.build_file_list`: for each `src` in `args.sources`, a
directory contributes its (recursively when requested) globbed regular
non-`.md5` files paired with paths relative to the directory — abstracted by
the `globFiles` oracle — while a plain file contributes itself paired with its
basename.  Nothing is deduplicated. -/
def buildFileList (isDir : String → Bool) (globFiles : String → List FileEntry)
    (sources : List String) : List FileEntry :=
  List.flatMap sources
    (fun src => if isDir src then globFiles src else [⟨src, baseName src⟩])

/-- `SodarIngest.build_jobs`: one job per entry, destination
`f"{lz_irods_path}/{target_coll}/{ipath}"`, size from `stat` (`st` oracle),
then `tuple(sorted(...))`. -/
def ingestBuildJobs (st : String → Nat) (lzPath targetColl : String)
    (entries : List FileEntry) : List TransferJob :=
  sortJobs (entries.map (fun e =>
    ⟨e.spath, lzPath ++ "/" ++ targetColl ++ "/" ++ e.ipath, st e.spath, none⟩))

/-! ## Pattern mode (`SnappyItransferCommandBase.build_jobs`) -/

/-- Filesystem oracle: size of the regular file at a path, `none` when the
path is not a regular file. -/
def FS : Type := String → Option Nat

/-- One `glob.glob` match for a library: `rel` is
`os.path.relpath(glob_result, base_dir)`, `real` is
`os.path.realpath(glob_result)`. -/
structure GlobEntry where
  rel : String
  real : String
deriving DecidableEq, Repr

/-- The inner loop of `SnappyItransferCommandBase.build_jobs` for one library:
skip `.md5` matches and matches that are not regular files; raise
`MissingFileException` when the sidecar is absent and `fix_md5_files` is off;
emit the data job and its `.md5` job (sizes degrade to 0 on `OSError`). -/
def snappyEntryJobs (fs : FS) (remoteDir : String) (fixMd5 : Bool) :
    List GlobEntry → Except SnappyError (List TransferJob)
  | [] => .ok []
  | e :: es =>
    if e.real.endsWith ".md5" then snappyEntryJobs fs remoteDir fixMd5 es
    else
      match fs e.real with
      | none => snappyEntryJobs fs remoteDir fixMd5 es
      | some sz =>
        if (fs (e.real ++ ".md5")).isNone && !fixMd5 then .error .missingFile
        else
          let j1 : TransferJob := ⟨e.real, remoteDir ++ "/" ++ e.rel, sz, none⟩
          let j2 : TransferJob :=
            ⟨e.real ++ ".md5", remoteDir ++ "/" ++ e.rel ++ ".md5",
              (fs (e.real ++ ".md5")).getD 0, none⟩
          (snappyEntryJobs fs remoteDir fixMd5 es).map (fun rest => j1 :: j2 :: rest)

/-- The per-library loop of `build_jobs`: `remoteSubdir lib` is
`args.remote_dir_pattern.format(library_name=lib, step=..., date=...)` and
`libEntries lib` the glob matches of the library's base dir and pattern. -/
def snappyBuildJobs (fs : FS) (lzPath : String) (remoteSubdir : String → String)
    (fixMd5 : Bool) (libEntries : String → List GlobEntry) :
    List String → Except SnappyError (List TransferJob)
  | [] => .ok []
  | lib :: libs =>
    match snappyEntryJobs fs (lzPath ++ "/" ++ remoteSubdir lib) fixMd5 (libEntries lib) with
    | .error e => .error e
    | .ok js =>
      (snappyBuildJobs fs lzPath remoteSubdir fixMd5 libEntries libs).map
        (fun rest => js ++ rest)

/-- `build_jobs` (pattern mode) including the final `tuple(sorted(...))`. -/
def snappyBuildJobsAll (fs : FS) (lzPath : String) (remoteSubdir : String → String)
    (fixMd5 : Bool) (libEntries : String → List GlobEntry) (libs : List String) :
    Except SnappyError (List TransferJob) :=
  (snappyBuildJobs fs lzPath remoteSubdir fixMd5 libEntries libs).map sortJobs

/-! ## Checksum sidecars (`compute_md5sum`, `_execute_md5_files_fix`) -/

/-- Pointwise filesystem update. -/
def fsSet (fs : FS) (p : String) (v : Option Nat) : FS :=
  fun q => if q = p then v else fs q

/-- `job.path_src[: -len(".md5")]`: the data file paired with a sidecar path. -/
def dataPath (s : String) : String :=
  String.mk (s.data.take (s.data.length - 4))

/-- `compute_md5sum`: `open(path_md5, "wt")` creates/truncates the sidecar,
`check_call(["md5sum", filename], ...)` writes the digest line (`ok` = the
subprocess succeeded; `gen p` = the byte size of the sidecar written at `p`).
On `SubprocessError` the partially written sidecar is removed with
`os.remove` and the error is re-raised — there is no retry decorator here.
On success the *data* file's size is added to the shared counter. -/
def computeMd5sum (gen : String → Nat) (ok : Bool) (fs : FS) (job : TransferJob)
    (counter : Nat) : Except Unit Nat × FS :=
  let pathMd5 := job.path_src
  let fs1 := fsSet fs pathMd5 (some 0)
  if ok then
    let fs2 := fsSet fs1 pathMd5 (some (gen pathMd5))
    match fs2 (dataPath job.path_src) with
    | some n => (.ok ((counter + n) % U64), fs2)
    | none => (.error (), fs2)
  else
    (.error (), fsSet fs1 pathMd5 none)

/-- The sequential (`--num-parallel-transfers 0`) generation loop of
`_execute_md5_files_fix`: `compute_md5sum` once per pending job, first
failure propagates. -/
def md5FixLoop (gen : String → Nat) (okf : String → Bool) :
    List TransferJob → FS → Nat → Except Unit Nat × FS
  | [], fs, c => (.ok c, fs)
  | j :: js, fs, c =>
    match computeMd5sum gen (okf j.path_src) fs j c with
    | (.ok c', fs') => md5FixLoop gen okf js fs' c'
    | (.error e, fs') => (.error e, fs')

/-- `sum([os.path.getsize(j.path_src[: -len(".md5")]) for j in todo_jobs])`:
`os.path.getsize` raises `OSError` on a missing file. -/
def sumDataSizes (fs : FS) : List TransferJob → Except Unit Nat
  | [] => .ok 0
  | j :: js =>
    match fs (dataPath j.path_src) with
    | none => .error ()
    | some n => (sumDataSizes fs js).map (fun s => n + s)

/-- The `done_jobs` rebuild of `_execute_md5_files_fix`: each pending job is
replaced by a new `TransferJob` identical except for
`bytes=os.path.getsize(j.path_src)` re-read from disk. -/
def doneJobs (fs : FS) : List TransferJob → Except Unit (List TransferJob)
  | [] => .ok []
  | j :: js =>
    match fs j.path_src with
    | none => .error ()
    | some n =>
      (doneJobs fs js).map (fun rest => ⟨j.path_src, j.path_dest, n, j.command⟩ :: rest)

/-- `_execute_md5_files_fix`: partition jobs into `ok_jobs` (source exists) and
`todo_jobs` (sidecar must be generated), report the total data-file size, run
`compute_md5sum` per pending job, rebuild the pending jobs with the sidecar's
actual on-disk size, and return `tuple(sorted(done_jobs + ok_jobs))`. -/
def executeMd5Fix (gen : String → Nat) (okf : String → Bool) (fs : FS)
    (jobs : List TransferJob) : Except Unit (List TransferJob) × FS :=
  let okJobs := jobs.filter (fun j => (fs j.path_src).isSome)
  let todoJobs := jobs.filter (fun j => !(fs j.path_src).isSome)
  match sumDataSizes fs todoJobs with
  | .error e => (.error e, fs)
  | .ok _total =>
    match md5FixLoop gen okf todoJobs fs 0 with
    | (.error e, fs') => (.error e, fs')
    | (.ok _c, fs') =>
      match doneJobs fs' todoJobs with
      | .error e => (.error e, fs')
      | .ok done => (.ok (sortJobs (done ++ okJobs)), fs')

/-! ## Theorems -/

theorem sortJobs_sorted (l : List TransferJob) : List.Sorted jobLE (sortJobs l) :=
  List.sorted_insertionSort jobLE l

theorem sortJobs_perm (l : List TransferJob) : List.Perm (sortJobs l) l :=
  List.perm_insertionSort jobLE l

theorem pairLE_of_jobLE {a b : TransferJob} (h : jobLE a b) : pairLE a b := by
  rcases (Prod.Lex.le_iff _ _).1 h with h₁ | ⟨h₁, h₂⟩
  · exact (Prod.Lex.le_iff _ _).2 (Or.inl h₁)
  · rcases (Prod.Lex.le_iff _ _).1 h₂ with h₃ | ⟨h₃, _⟩
    · exact (Prod.Lex.le_iff _ _).2 (Or.inr ⟨h₁, le_of_lt h₃⟩)
    · exact (Prod.Lex.le_iff _ _).2 (Or.inr ⟨h₁, le_of_eq h₃⟩)

theorem sortJobs_sorted_pair (l : List TransferJob) : List.Sorted pairLE (sortJobs l) :=
  (sortJobs_sorted l).imp (fun h => pairLE_of_jobLE h)

/-- C1: with `assume_yes` set and a project holding two eligible zones — zone
`uuid-a` `ACTIVE`, modified at time 2, and zone `uuid-b` `FAILED`, modified at
time 1 — resolution issues only the list call (no creation call) but selects
the *least* recently modified eligible zone `uuid-b`: `get_latest_landing_zone`
sorts most-recent-first and then takes `existing_lzs[-1]`, the oldest element,
contradicting its own docstring ("latest active landing zone") and the claim's
"most recently modified". -/
theorem c1_code_behavior :
    getSodarInfo
      ⟨.ok [⟨"uuid-a", "/irods/a", "ACTIVE", "as1", 2⟩,
            ⟨"uuid-b", "/irods/b", "FAILED", "as1", 1⟩],
        fun _ => .error (), .ok ("uuid-c", "/irods/c")⟩
      true true "proj-uuid" none false false =
      (.ok ("uuid-b", "/irods/b"), [.listZones]) := by
  rfl

/-- C10: whenever `is_uuid(destination)` is false, `get_sodar_info` raises the
`ParameterException` ("Data provided by user is not a valid UUID") — the class
the specification calls `InvalidDestinationError` / `ParameterError` — without
issuing a single landing-zone lookup, retrieval or creation call. -/
theorem c10_theorem (api : SodarApi) (assumeYes : Bool) (destination : String)
    (assay : Option String) (confirmUsePath confirmCreate : Bool) :
    getSodarInfo api false assumeYes destination assay confirmUsePath confirmCreate =
      (.error .parameter, []) :=
  rfl

/-- C5: every job set built by pattern-mode `build_jobs` is sorted
nondecreasingly by `(path_src, path_dest)`, and building twice from the same
inputs (same filesystem and glob oracles) yields the same job set. -/
theorem c5_theorem (fs : FS) (lzPath : String) (remoteSubdir : String → String)
    (fixMd5 : Bool) (libEntries : String → List GlobEntry) (libs : List String)
    (jobs : List TransferJob)
    (h : snappyBuildJobsAll fs lzPath remoteSubdir fixMd5 libEntries libs = .ok jobs) :
    List.Sorted pairLE jobs ∧
    snappyBuildJobsAll fs lzPath remoteSubdir fixMd5 libEntries libs =
      snappyBuildJobsAll fs lzPath remoteSubdir fixMd5 libEntries libs := by
  refine ⟨?_, rfl⟩
  unfold snappyBuildJobsAll at h
  cases hin : snappyBuildJobs fs lzPath remoteSubdir fixMd5 libEntries libs with
  | error e => rw [hin] at h; exact absurd h (by simp [Except.map])
  | ok js =>
    rw [hin] at h
    simp only [Except.map, Except.ok.injEq] at h
    rw [← h]
    exact sortJobs_sorted_pair js

/-- Witness for C5 at a concrete one-library, one-file input. -/
theorem c5_witness :
    List.Sorted pairLE
      [⟨"f", "/lz/L/f", 3, none⟩, ⟨"f.md5", "/lz/L/f.md5", 1, none⟩] ∧
    snappyBuildJobsAll
        (fun s => if s = "f" then some 3 else if s = "f.md5" then some 1 else none)
        "/lz" (fun l => l) false (fun _ => [⟨"f", "f"⟩]) ["L"] =
      snappyBuildJobsAll
        (fun s => if s = "f" then some 3 else if s = "f.md5" then some 1 else none)
        "/lz" (fun l => l) false (fun _ => [⟨"f", "f"⟩]) ["L"] :=
  c5_theorem
    (fun s => if s = "f" then some 3 else if s = "f.md5" then some 1 else none)
    "/lz" (fun l => l) false (fun _ => [⟨"f", "f"⟩]) ["L"]
    [⟨"f", "/lz/L/f", 3, none⟩, ⟨"f.md5", "/lz/L/f.md5", 1, none⟩] (by rfl)

theorem U64_pos : 0 < U64 := pow_pos (by norm_num) 64

theorem sumBytes_cons (j : TransferJob) (js : List TransferJob) :
    sumBytes (j :: js) = j.bytes + sumBytes js := by
  simp [sumBytes]

/-- A run of the sequential loop in which every job's retry succeeds processes
the jobs in order and accumulates the byte total modulo `2 ^ 64`. -/
theorem executeSeq_allOk (orc : TransferJob → Nat → Bool) :
    ∀ (jobs : List TransferJob) (c : Nat), c < U64 →
      (∀ j ∈ jobs, runRetry (orc j) = true) →
      executeSeq orc jobs c = ⟨(c + sumBytes jobs) % U64, false, jobs⟩ := by
  intro jobs
  induction jobs with
  | nil =>
    intro c hc _
    simp [executeSeq, sumBytes, Nat.mod_eq_of_lt hc]
  | cons j js ih =>
    intro c hc hall
    have hj : runRetry (orc j) = true := hall j (by simp)
    have hrest : ∀ j' ∈ js, runRetry (orc j') = true :=
      fun j' hmem => hall j' (by simp [hmem])
    have hc' : (c + j.bytes) % U64 < U64 := Nat.mod_lt _ U64_pos
    simp only [executeSeq, hj, if_true, ih ((c + j.bytes) % U64) hc' hrest,
      RunResult.mk.injEq]
    refine ⟨?_, by simp⟩
    rw [Nat.mod_add_mod, sumBytes_cons, Nat.add_assoc]

/-- The pooled loop's counter when every scheduled job's retry succeeds. -/
theorem poolFold_allOk (orc : TransferJob → Nat → Bool) :
    ∀ (schedule : List TransferJob) (c : Nat), c < U64 →
      (∀ j ∈ schedule, runRetry (orc j) = true) →
      schedule.foldl
          (fun c j => if runRetry (orc j) then (c + j.bytes) % U64 else c) c =
        (c + sumBytes schedule) % U64 := by
  intro schedule
  induction schedule with
  | nil =>
    intro c hc _
    simp [sumBytes, Nat.mod_eq_of_lt hc]
  | cons j js ih =>
    intro c hc hall
    have hj : runRetry (orc j) = true := hall j (by simp)
    have hrest : ∀ j' ∈ js, runRetry (orc j') = true :=
      fun j' hmem => hall j' (by simp [hmem])
    have hc' : (c + j.bytes) % U64 < U64 := Nat.mod_lt _ U64_pos
    simp only [List.foldl_cons, hj, if_true, ih ((c + j.bytes) % U64) hc' hrest]
    rw [Nat.mod_add_mod, sumBytes_cons, Nat.add_assoc]

/-- The sequential loop over `good ++ bad :: rest` where every `good` job
succeeds and `bad`'s retry is exhausted: it halts at `bad` with the counter at
the prior successes' total. -/
theorem executeSeq_failAt (orc : TransferJob → Nat → Bool) (bad : TransferJob)
    (rest : List TransferJob) (hbad : runRetry (orc bad) = false) :
    ∀ (good : List TransferJob) (c : Nat), c < U64 →
      (∀ j ∈ good, runRetry (orc j) = true) →
      executeSeq orc (good ++ bad :: rest) c =
        ⟨(c + sumBytes good) % U64, true, good⟩ := by
  intro good
  induction good with
  | nil =>
    intro c hc _
    simp [executeSeq, hbad, sumBytes, Nat.mod_eq_of_lt hc]
  | cons j js ih =>
    intro c hc hall
    have hj : runRetry (orc j) = true := hall j (by simp)
    have hrest : ∀ j' ∈ js, runRetry (orc j') = true :=
      fun j' hmem => hall j' (by simp [hmem])
    have hc' : (c + j.bytes) % U64 < U64 := Nat.mod_lt _ U64_pos
    simp only [List.cons_append, executeSeq, hj, if_true, List.append_eq,
      ih ((c + j.bytes) % U64) hc' hrest, RunResult.mk.injEq]
    refine ⟨?_, by simp⟩
    rw [Nat.mod_add_mod, sumBytes_cons, Nat.add_assoc]

/-- C2 (amended): a retried remote call that fails on its first two attempts
and succeeds on the third completes and adds the job's bytes exactly once
(ceiling 5 not reached); a job whose every attempt fails exhausts the retry
ceiling and raises; in sequential mode (`--num-parallel-transfers 0`) that
error halts the run with the counter at the sum of the previously succeeded
jobs' sizes, while in pooled mode the failure is swallowed by the unread
`apply_async` results and no error reaches the caller. -/
theorem c2_theorem (orc : TransferJob → Nat → Bool) (good : List TransferJob)
    (bad : TransferJob) (rest : List TransferJob) (c : Nat)
    (hc : c + sumBytes good < U64)
    (hgood : ∀ j ∈ good, runRetry (orc j) = true)
    (hbad : ∀ k, orc bad k = false) :
    (∀ (j : TransferJob) (o : Nat → Bool) (c' : Nat),
        o 0 = false → o 1 = false → o 2 = true →
        irsyncTransfer o j c' = .ok ((c' + j.bytes) % U64)) ∧
    executeSeq orc (good ++ bad :: rest) c = ⟨c + sumBytes good, true, good⟩ ∧
    (executePool orc (good ++ bad :: rest) c).errorRaised = false := by
  have hbadRun : runRetry (orc bad) = false := by
    simp [runRetry, hbad]
  have hcsmall : c < U64 := lt_of_le_of_lt (Nat.le_add_right _ _) hc
  refine ⟨?_, ?_, rfl⟩
  · intro j o c' _h0 _h1 h2
    have hrun : runRetry o = true := by
      simp only [runRetry, List.any_eq_true]
      exact ⟨2, by simp [retryCeiling], h2⟩
    simp [irsyncTransfer, hrun]
  · rw [executeSeq_failAt orc bad rest hbadRun good c hcsmall hgood,
      Nat.mod_eq_of_lt hc]

/-- Witness for C2: one succeeding job (5 bytes) followed by one always-failing
job; the sequential run halts with counter 5, and a fail-fail-succeed oracle
completes a 3-byte job. -/
theorem c2_witness :
    irsyncTransfer (fun k => k == 2) ⟨"x", "dx", 3, none⟩ 0 = .ok ((0 + 3) % U64) ∧
    executeSeq (fun j _ => j.path_src == "a")
        ([⟨"a", "d1", 5, none⟩] ++ ⟨"b", "d2", 7, none⟩ :: []) 0 =
      ⟨0 + sumBytes [⟨"a", "d1", 5, none⟩], true, [⟨"a", "d1", 5, none⟩]⟩ ∧
    (executePool (fun j _ => j.path_src == "a")
        ([⟨"a", "d1", 5, none⟩] ++ ⟨"b", "d2", 7, none⟩ :: []) 0).errorRaised = false := by
  have h := c2_theorem (fun j _ => j.path_src == "a") [⟨"a", "d1", 5, none⟩]
    ⟨"b", "d2", 7, none⟩ [] 0 (by decide) (by decide) (fun _ => rfl)
  exact ⟨h.1 ⟨"x", "dx", 3, none⟩ (fun k => k == 2) 0 rfl rfl rfl, h.2.1, h.2.2⟩

/-- C2 counterexample to the claim as stated: under the default pooled
execution, a job that fails on every attempt up to the retry ceiling does NOT
surface an error to the caller — the run completes with no error raised,
because `apply_async` results are never read. -/
theorem c2_counterexample :
    executePool (fun _ _ => false) [⟨"/data/a.bam", "/dest/a.bam", 10, none⟩] 0 =
      ⟨0, false, []⟩ := by
  decide

/-- C6: with concurrency 0 the executor processes the jobs strictly one at a
time in job-set order (the processed trace is exactly the job list), and after
an all-success run at any concurrency (any completion order `schedule` of the
pool) the shared counter is exactly the sum of all job sizes — no lost
increments. -/
theorem c6_theorem (orc : TransferJob → Nat → Bool) (jobs schedule : List TransferJob)
    (c : Nat) (hall : ∀ j ∈ jobs, runRetry (orc j) = true)
    (hperm : List.Perm schedule jobs) (hbound : c + sumBytes jobs < U64) :
    executeSeq orc jobs c = ⟨c + sumBytes jobs, false, jobs⟩ ∧
    (executePool orc schedule c).counter = c + sumBytes jobs ∧
    (executePool orc schedule c).errorRaised = false := by
  have hcsmall : c < U64 := lt_of_le_of_lt (Nat.le_add_right _ _) hbound
  have hsum : sumBytes schedule = sumBytes jobs := by
    unfold sumBytes
    exact (hperm.map TransferJob.bytes).sum_eq
  have hallSched : ∀ j ∈ schedule, runRetry (orc j) = true :=
    fun j hmem => hall j (hperm.mem_iff.1 hmem)
  refine ⟨?_, ?_, rfl⟩
  · rw [executeSeq_allOk orc jobs c hcsmall hall, Nat.mod_eq_of_lt hbound]
  · show schedule.foldl _ c = _
    rw [poolFold_allOk orc schedule c hcsmall hallSched, hsum,
      Nat.mod_eq_of_lt hbound]

/-- Witness for C6: three jobs, pool completion order reversed. -/
theorem c6_witness :
    executeSeq (fun _ _ => true)
        [⟨"a", "d1", 1, none⟩, ⟨"b", "d2", 2, none⟩, ⟨"c", "d3", 4, none⟩] 0 =
      ⟨0 + sumBytes [⟨"a", "d1", 1, none⟩, ⟨"b", "d2", 2, none⟩, ⟨"c", "d3", 4, none⟩],
        false,
        [⟨"a", "d1", 1, none⟩, ⟨"b", "d2", 2, none⟩, ⟨"c", "d3", 4, none⟩]⟩ ∧
    (executePool (fun _ _ => true)
        [⟨"c", "d3", 4, none⟩, ⟨"b", "d2", 2, none⟩, ⟨"a", "d1", 1, none⟩] 0).counter =
      0 + sumBytes [⟨"a", "d1", 1, none⟩, ⟨"b", "d2", 2, none⟩, ⟨"c", "d3", 4, none⟩] ∧
    (executePool (fun _ _ => true)
        [⟨"c", "d3", 4, none⟩, ⟨"b", "d2", 2, none⟩, ⟨"a", "d1", 1, none⟩] 0).errorRaised =
      false :=
  c6_theorem (fun _ _ => true)
    [⟨"a", "d1", 1, none⟩, ⟨"b", "d2", 2, none⟩, ⟨"c", "d3", 4, none⟩]
    [⟨"c", "d3", 4, none⟩, ⟨"b", "d2", 2, none⟩, ⟨"a", "d1", 1, none⟩] 0
    (by decide) (by decide) (by decide)

/-- The command loop of the sea-snap `irsync_transfer` accumulates nothing. -/
theorem foldlKeep_eq {α β : Type} (l : List α) (init : List β) :
    l.foldl (fun acc _ => acc) init = init := by
  induction l with
  | nil => rfl
  | cons x xs ih => simp only [List.foldl_cons]; exact ih

theorem seaSumBytes_cons (j : SeaTransferJob) (js : List SeaTransferJob) :
    seaSumBytes (j :: js) = j.bytes + seaSumBytes js := by
  simp [seaSumBytes]

theorem seaIrsyncTransfer_eq (job : SeaTransferJob) (c : Nat) :
    seaIrsyncTransfer job c = ((c + job.bytes) % U64, []) := by
  simp [seaIrsyncTransfer, foldlKeep_eq]

theorem seaExecute_eq (jobs : List SeaTransferJob) :
    ∀ c : Nat, c < U64 →
      seaExecute jobs c = ((c + seaSumBytes jobs) % U64, []) := by
  induction jobs with
  | nil =>
    intro c hc
    simp [seaExecute, seaSumBytes, Nat.mod_eq_of_lt hc]
  | cons j js ih =>
    intro c hc
    have hc' : (c + j.bytes) % U64 < U64 := Nat.mod_lt _ U64_pos
    simp only [seaExecute, seaIrsyncTransfer_eq, ih ((c + j.bytes) % U64) hc',
      List.nil_append]
    rw [Nat.mod_add_mod, seaSumBytes_cons, Nat.add_assoc]

/-- C3: in blueprint mode, executing a job set runs no external transfer
command at all — the remote-invocation branch of `irsync_transfer` is a no-op
for every command line of every job (its `check_output` is commented out) —
yet the shared byte counter still receives each job's size, so the run reports
the full byte total while transferring nothing. -/
theorem c3_theorem (jobs : List SeaTransferJob) (hbound : seaSumBytes jobs < U64) :
    seaExecute jobs 0 = (seaSumBytes jobs, []) := by
  rw [seaExecute_eq jobs 0 U64_pos, Nat.zero_add, Nat.mod_eq_of_lt hbound]

/-- Witness for C3: two blueprint jobs, 3 and 4 bytes, several command lines. -/
theorem c3_witness :
    seaExecute
        [⟨"a.bam", "/lz/a.bam", "irsync -a -K a.bam i:/lz/a.bam\nils /lz", 3⟩,
          ⟨"b.bam", "/lz/b.bam", "irsync -a -K b.bam i:/lz/b.bam", 4⟩] 0 =
      (seaSumBytes
        [⟨"a.bam", "/lz/a.bam", "irsync -a -K a.bam i:/lz/a.bam\nils /lz", 3⟩,
          ⟨"b.bam", "/lz/b.bam", "irsync -a -K b.bam i:/lz/b.bam", 4⟩], []) :=
  c3_theorem
    [⟨"a.bam", "/lz/a.bam", "irsync -a -K a.bam i:/lz/a.bam\nils /lz", 3⟩,
      ⟨"b.bam", "/lz/b.bam", "irsync -a -K b.bam i:/lz/b.bam", 4⟩]
    (by decide)

/-- Helper: a list is a permutation of `filter p ++ filter (not p)`. -/
theorem filter_append_filter_not_perm {α : Type} (p : α → Bool) (l : List α) :
    List.Perm (l.filter p ++ l.filter (fun a => !p a)) l := by
  induction l with
  | nil => simp
  | cons a t ih =>
    cases hpa : p a with
    | true => simpa [List.filter_cons, hpa] using ih.cons a
    | false =>
      simp only [List.filter_cons, hpa, Bool.not_false, Bool.false_eq_true,
        if_false, if_true]
      exact List.perm_middle.trans (ih.cons a)

/-- C4 counterexample to the claim as stated: the ingest builder performs no
deduplication — listing the same plain file twice in `args.sources` yields a
job set in which two member jobs share the same `(source_path, dest_path)`
pair. -/
theorem c4_counterexample :
    (ingestBuildJobs (fun _ => 5) "/lz" "coll"
        (buildFileList (fun _ => false) (fun _ => []) ["a.txt", "a.txt"])).map
      jobPair =
      [("a.txt", "/lz/coll/a.txt"), ("a.txt", "/lz/coll/a.txt")] ∧
    ¬ ([("a.txt", "/lz/coll/a.txt"), ("a.txt", "/lz/coll/a.txt")] :
        List (String × String)).Nodup := by
  refine ⟨by rfl, ?_⟩
  simp [List.nodup_cons]

/-- C4 (amended): a built job set is the sorted sequence of exactly the jobs
generated from the enumerated entries — nothing is deduplicated — so its
`(source_path, dest_path)` pairs are a permutation of the enumerated pairs,
and it is duplicate-free precisely when those enumerated pairs are pairwise
distinct (shown for the `sodar ingest` builder; the snappy and sea-snap
builders end in the same `tuple(sorted(...))` without deduplication). -/
theorem c4_theorem (st : String → Nat) (lzPath targetColl : String)
    (entries : List FileEntry) :
    List.Perm ((ingestBuildJobs st lzPath targetColl entries).map jobPair)
      (entries.map (fun e => (e.spath, lzPath ++ "/" ++ targetColl ++ "/" ++ e.ipath))) ∧
    (((ingestBuildJobs st lzPath targetColl entries).map jobPair).Nodup ↔
      (entries.map
        (fun e => (e.spath, lzPath ++ "/" ++ targetColl ++ "/" ++ e.ipath))).Nodup) := by
  have hperm :
      List.Perm ((ingestBuildJobs st lzPath targetColl entries).map jobPair)
        ((entries.map (fun e =>
          (⟨e.spath, lzPath ++ "/" ++ targetColl ++ "/" ++ e.ipath, st e.spath,
            none⟩ : TransferJob))).map jobPair) :=
    (sortJobs_perm _).map jobPair
  rw [List.map_map] at hperm
  exact ⟨hperm, hperm.nodup_iff⟩

theorem fsSet_same (fs : FS) (p : String) (v : Option Nat) : fsSet fs p v p = v := by
  simp [fsSet]

theorem fsSet_other (fs : FS) (p q : String) (v : Option Nat) (h : q ≠ p) :
    fsSet fs p v q = fs q := by
  simp [fsSet, h]

/-- When every data file of `todo` is present, the pre-computation of the
total data size succeeds. -/
theorem sumDataSizes_ok (fs : FS) :
    ∀ todo : List TransferJob,
      (∀ j ∈ todo, (fs (dataPath j.path_src)).isSome = true) →
      ∃ t, sumDataSizes fs todo = .ok t := by
  intro todo
  induction todo with
  | nil => intro _; exact ⟨0, rfl⟩
  | cons j js ih =>
    intro hall
    have hj := hall j (by simp)
    obtain ⟨n, hn⟩ := Option.isSome_iff_exists.1 hj
    obtain ⟨t, ht⟩ := ih (fun x hx => hall x (by simp [hx]))
    exact ⟨n + t, by simp [sumDataSizes, hn, ht, Except.map]⟩

/-- The generation loop, when the subprocess succeeds for every pending job and
every paired data file is present: it succeeds, writes each pending sidecar
with its generated size, and touches no other path. -/
theorem md5FixLoop_ok (gen : String → Nat) (okf : String → Bool) :
    ∀ (todo : List TransferJob) (fs : FS) (c : Nat),
      (∀ j ∈ todo, okf j.path_src = true) →
      (∀ j ∈ todo, (fs (dataPath j.path_src)).isSome = true) →
      ∃ (c' : Nat) (fs' : FS),
        md5FixLoop gen okf todo fs c = (.ok c', fs') ∧
        (∀ j ∈ todo, fs' j.path_src = some (gen j.path_src)) ∧
        (∀ p, p ∉ todo.map TransferJob.path_src → fs' p = fs p) := by
  intro todo
  induction todo with
  | nil =>
    intro fs c _ _
    exact ⟨c, fs, rfl, by simp, fun p _ => rfl⟩
  | cons j js ih =>
    intro fs c hok hdata
    have hokj : okf j.path_src = true := hok j (by simp)
    set fs2 : FS := fsSet (fsSet fs j.path_src (some 0)) j.path_src
      (some (gen j.path_src)) with hfs2
    have hfs2at : ∀ q, fs2 q = if q = j.path_src then some (gen j.path_src) else fs q := by
      intro q
      by_cases hq : q = j.path_src
      · simp [hfs2, fsSet, hq]
      · simp [hfs2, fsSet, hq]
    have hfs2some : ∀ q, (fs q).isSome = true → (fs2 q).isSome = true := by
      intro q hq
      rw [hfs2at q]
      by_cases h : q = j.path_src <;> simp [h, hq]
    have hdj : (fs2 (dataPath j.path_src)).isSome = true :=
      hfs2some _ (hdata j (by simp))
    obtain ⟨n, hn⟩ := Option.isSome_iff_exists.1 hdj
    have hstep :
        computeMd5sum gen (okf j.path_src) fs j c = (.ok ((c + n) % U64), fs2) := by
      rw [hokj]
      simp only [computeMd5sum, ← hfs2, hn, if_true]
    obtain ⟨c', fs', hloop, hwritten, hframe⟩ :=
      ih fs2 ((c + n) % U64) (fun x hx => hok x (by simp [hx]))
        (fun x hx => hfs2some _ (hdata x (by simp [hx])))
    refine ⟨c', fs', ?_, ?_, ?_⟩
    · simp only [md5FixLoop, hstep, hloop]
    · intro x hx
      rcases List.mem_cons.1 hx with rfl | hxs
      · by_cases hmem : x.path_src ∈ js.map TransferJob.path_src
        · obtain ⟨x', hx', he⟩ := List.mem_map.1 hmem
          rw [← he, hwritten x' hx', he]
        · rw [hframe _ hmem, hfs2at, if_pos rfl]
      · exact hwritten x hxs
    · intro p hp
      have hpj : p ≠ j.path_src := fun he => hp (by simp [he])
      have hpjs : p ∉ js.map TransferJob.path_src := fun hm => hp (by simp [hm])
      rw [hframe p hpjs, hfs2at, if_neg hpj]

/-- When every pending sidecar has been written, `done_jobs` rebuilds each
pending job with the written sidecar's size. -/
theorem doneJobs_of_written (gen : String → Nat) (fs' : FS) :
    ∀ todo : List TransferJob,
      (∀ j ∈ todo, fs' j.path_src = some (gen j.path_src)) →
      doneJobs fs' todo =
        .ok (todo.map (fun j =>
          ⟨j.path_src, j.path_dest, gen j.path_src, j.command⟩)) := by
  intro todo
  induction todo with
  | nil => intro _; rfl
  | cons j js ih =>
    intro hall
    have hj := hall j (by simp)
    rw [List.map_cons]
    simp only [doneJobs, hj, ih (fun x hx => hall x (by simp [hx])), Except.map]

/-- C8: when generation succeeds, the checksum-fix step returns the re-sorted
job set whose `(source_path, dest_path)` pairs are exactly those of its input:
jobs whose source file already existed are returned unchanged, and each
formerly pending job is replaced by a job identical except that its size is
the generated sidecar's actual byte size. -/
theorem c8_theorem (gen : String → Nat) (okf : String → Bool) (fs : FS)
    (jobs : List TransferJob)
    (hok : ∀ j ∈ jobs.filter (fun x => !(fs x.path_src).isSome), okf j.path_src = true)
    (hdata : ∀ j ∈ jobs.filter (fun x => !(fs x.path_src).isSome),
      (fs (dataPath j.path_src)).isSome = true) :
    ∃ fs' : FS,
      executeMd5Fix gen okf fs jobs =
        (.ok (sortJobs
          ((jobs.filter (fun x => !(fs x.path_src).isSome)).map
              (fun j => ⟨j.path_src, j.path_dest, gen j.path_src, j.command⟩) ++
            jobs.filter (fun x => (fs x.path_src).isSome))), fs') ∧
      List.Perm
        ((sortJobs
          ((jobs.filter (fun x => !(fs x.path_src).isSome)).map
              (fun j => (⟨j.path_src, j.path_dest, gen j.path_src, j.command⟩ :
                TransferJob)) ++
            jobs.filter (fun x => (fs x.path_src).isSome))).map jobPair)
        (jobs.map jobPair) := by
  obtain ⟨t, ht⟩ := sumDataSizes_ok fs _ hdata
  obtain ⟨c', fs', hloop, hwritten, _hframe⟩ := md5FixLoop_ok gen okf _ fs 0 hok hdata
  have hdone := doneJobs_of_written gen fs' _ hwritten
  refine ⟨fs', ?_, ?_⟩
  · simp only [executeMd5Fix, ht, hloop, hdone]
  · have hsorted :
        List.Perm
          ((sortJobs
            ((jobs.filter (fun x => !(fs x.path_src).isSome)).map
                (fun j => (⟨j.path_src, j.path_dest, gen j.path_src, j.command⟩ :
                  TransferJob)) ++
              jobs.filter (fun x => (fs x.path_src).isSome))).map jobPair)
          ((((jobs.filter (fun x => !(fs x.path_src).isSome)).map
              (fun j => (⟨j.path_src, j.path_dest, gen j.path_src, j.command⟩ :
                TransferJob)) ++
            jobs.filter (fun x => (fs x.path_src).isSome))).map jobPair) :=
      (sortJobs_perm _).map jobPair
    refine hsorted.trans ?_
    rw [List.map_append, List.map_map]
    have hmapped :
        (jobs.filter (fun x => !(fs x.path_src).isSome)).map
            (jobPair ∘ fun j =>
              (⟨j.path_src, j.path_dest, gen j.path_src, j.command⟩ : TransferJob)) =
          (jobs.filter (fun x => !(fs x.path_src).isSome)).map jobPair := by
      exact List.map_congr_left (fun a _ => rfl)
    rw [hmapped, ← List.map_append]
    refine List.Perm.map jobPair ?_
    have hfilters := filter_append_filter_not_perm
      (fun x : TransferJob => !(fs x.path_src).isSome) jobs
    have hnotnot :
        jobs.filter (fun x => !(!(fs x.path_src).isSome)) =
          jobs.filter (fun x => (fs x.path_src).isSome) := by
      simp
    rw [hnotnot] at hfilters
    exact hfilters

/-- Witness for C8: a present data file `d.bam` (7 bytes) and its pending
sidecar `d.bam.md5`, generated with 33 bytes. -/
theorem c8_witness :
    ∃ fs' : FS,
      executeMd5Fix (fun _ => 33) (fun _ => true)
          (fun s => if s = "d.bam" then some 7 else none)
          [⟨"d.bam", "/x/d.bam", 7, none⟩, ⟨"d.bam.md5", "/x/d.bam.md5", 0, none⟩] =
        (.ok (sortJobs
          ((([⟨"d.bam", "/x/d.bam", 7, none⟩, ⟨"d.bam.md5", "/x/d.bam.md5", 0, none⟩] :
              List TransferJob).filter
              (fun x => !((fun s => if s = "d.bam" then some 7 else none) x.path_src).isSome)).map
              (fun j => ⟨j.path_src, j.path_dest, 33, j.command⟩) ++
            ([⟨"d.bam", "/x/d.bam", 7, none⟩, ⟨"d.bam.md5", "/x/d.bam.md5", 0, none⟩] :
              List TransferJob).filter
              (fun x => ((fun s => if s = "d.bam" then some 7 else none) x.path_src).isSome))), fs') ∧
      List.Perm
        ((sortJobs
          ((([⟨"d.bam", "/x/d.bam", 7, none⟩, ⟨"d.bam.md5", "/x/d.bam.md5", 0, none⟩] :
              List TransferJob).filter
              (fun x => !((fun s => if s = "d.bam" then some 7 else none) x.path_src).isSome)).map
              (fun j => (⟨j.path_src, j.path_dest, 33, j.command⟩ : TransferJob)) ++
            ([⟨"d.bam", "/x/d.bam", 7, none⟩, ⟨"d.bam.md5", "/x/d.bam.md5", 0, none⟩] :
              List TransferJob).filter
              (fun x => ((fun s => if s = "d.bam" then some 7 else none) x.path_src).isSome))).map
          jobPair)
        (([⟨"d.bam", "/x/d.bam", 7, none⟩, ⟨"d.bam.md5", "/x/d.bam.md5", 0, none⟩] :
          List TransferJob).map jobPair) :=
  c8_theorem (fun _ => 33) (fun _ => true)
    (fun s => if s = "d.bam" then some 7 else none)
    [⟨"d.bam", "/x/d.bam", 7, none⟩, ⟨"d.bam.md5", "/x/d.bam.md5", 0, none⟩]
    (by decide) (by decide)

/-- C7: for a pending sidecar job whose checksum subprocess fails, the
partially written sidecar file is deleted, the failure propagates out of the
checksum-fix step (it is not retried — `compute_md5sum` carries no retry
decorator and is invoked once per job), and afterwards the filesystem holds no
sidecar file for that job. -/
theorem c7_theorem (gen : String → Nat) (okf : String → Bool) (fs : FS)
    (jobs : List TransferJob) (j : TransferJob) (rest : List TransferJob)
    (htodo : jobs.filter (fun x => !(fs x.path_src).isSome) = j :: rest)
    (hdata : ∀ x ∈ j :: rest, (fs (dataPath x.path_src)).isSome = true)
    (hfail : okf j.path_src = false) :
    ∃ fs' : FS,
      executeMd5Fix gen okf fs jobs = (.error (), fs') ∧
      fs' j.path_src = none := by
  obtain ⟨t, ht⟩ := sumDataSizes_ok fs (j :: rest) hdata
  set fsdel : FS := fsSet (fsSet fs j.path_src (some 0)) j.path_src none with hfsdel
  have hstep :
      computeMd5sum gen (okf j.path_src) fs j 0 = (.error (), fsdel) := by
    rw [hfail]
    simp only [computeMd5sum, ← hfsdel, Bool.false_eq_true, if_false]
  have hloop : md5FixLoop gen okf (j :: rest) fs 0 = (.error (), fsdel) := by
    simp only [md5FixLoop, hstep]
  refine ⟨fsdel, ?_, ?_⟩
  · simp only [executeMd5Fix, htodo, ht, hloop]
  · simp [hfsdel, fsSet]

/-- Witness for C7: the pending sidecar `d.bam.md5` whose `md5sum` call fails. -/
theorem c7_witness :
    ∃ fs' : FS,
      executeMd5Fix (fun _ => 33) (fun _ => false)
          (fun s => if s = "d.bam" then some 7 else none)
          [⟨"d.bam", "/x/d.bam", 7, none⟩, ⟨"d.bam.md5", "/x/d.bam.md5", 0, none⟩] =
        (.error (), fs') ∧
      fs' "d.bam.md5" = none :=
  c7_theorem (fun _ => 33) (fun _ => false)
    (fun s => if s = "d.bam" then some 7 else none)
    [⟨"d.bam", "/x/d.bam", 7, none⟩, ⟨"d.bam.md5", "/x/d.bam.md5", 0, none⟩]
    ⟨"d.bam.md5", "/x/d.bam.md5", 0, none⟩ []
    (by decide) (by decide) rfl

/-- A well-formed block whose source is not a sidecar and is newer than the
blueprint yields the staleness error. -/
theorem seaBuildBlock_stale (fs : SeaFS) (irodsDest : String) (bpMtime : Nat)
    (b : String)
    (h1 : (seaSourceList fs b).dedup.length = 1)
    (h2 : (seaDestList b).dedup.length = 1)
    (hmb : pySuffix ((seaSourceList fs b).headD "") ≠ ".md5")
    (hsb : bpMtime < ((fs ((seaSourceList fs b).headD "")).getD (0, 0)).1) :
    seaBuildBlock fs irodsDest bpMtime b = .error .staleInput := by
  simp only [seaBuildBlock]
  rw [if_neg (fun h => h h1), if_neg (fun h => h h2), if_neg hmb, if_pos hsb]

/-- A well-formed block can only fail with the staleness error. -/
theorem seaBuildBlock_wf_error (fs : SeaFS) (irodsDest : String) (bpMtime : Nat)
    (b : String)
    (h1 : (seaSourceList fs b).dedup.length = 1)
    (h2 : (seaDestList b).dedup.length = 1) :
    ∀ e : SeaError, seaBuildBlock fs irodsDest bpMtime b = .error e →
      e = .staleInput := by
  intro e h
  simp only [seaBuildBlock] at h
  rw [if_neg (fun hx => hx h1), if_neg (fun hx => hx h2)] at h
  by_cases hm : pySuffix ((seaSourceList fs b).headD "") = ".md5"
  · rw [if_pos hm] at h
    exact absurd h (by simp)
  · rw [if_neg hm] at h
    by_cases hs : bpMtime < ((fs ((seaSourceList fs b).headD "")).getD (0, 0)).1
    · rw [if_pos hs] at h
      simpa using h.symm
    · rw [if_neg hs] at h
      exact absurd h (by simp)

/-- The block loop fails with the staleness error when every block is
well-formed and some non-sidecar block's source is newer than the blueprint. -/
theorem seaBuildJobs_stale (fs : SeaFS) (irodsDest : String) (bpMtime : Nat) :
    ∀ blocks : List String,
      (∀ b ∈ blocks, b ≠ "" →
        (seaSourceList fs b).dedup.length = 1 ∧ (seaDestList b).dedup.length = 1) →
      (∃ b ∈ blocks, b ≠ "" ∧
        pySuffix ((seaSourceList fs b).headD "") ≠ ".md5" ∧
        bpMtime < ((fs ((seaSourceList fs b).headD "")).getD (0, 0)).1) →
      seaBuildJobs fs irodsDest bpMtime blocks = .error .staleInput := by
  intro blocks
  induction blocks with
  | nil =>
    intro _ hstale
    obtain ⟨b, hb, _⟩ := hstale
    exact absurd hb (List.not_mem_nil b)
  | cons b bs ih =>
    intro hwf hstale
    by_cases hb : b = ""
    · simp only [seaBuildJobs, hb, if_true]
      obtain ⟨b', hb', hne, hmd5, hst⟩ := hstale
      rcases List.mem_cons.1 hb' with rfl | hbs
      · exact absurd hb hne
      · exact ih (fun x hx => hwf x (by simp [hx])) ⟨b', hbs, hne, hmd5, hst⟩
    · obtain ⟨h1, h2⟩ := hwf b (by simp) hb
      obtain ⟨b', hb', hne, hmd5, hst⟩ := hstale
      rcases List.mem_cons.1 hb' with rfl | hbs
      · -- this very block is stale
        have hblk := seaBuildBlock_stale fs irodsDest bpMtime b' h1 h2 hmd5 hst
        simp only [seaBuildJobs, hb, if_false, hblk]
      · -- the stale witness lies in `bs`
        have hrest := ih (fun x hx => hwf x (by simp [hx])) ⟨b', hbs, hne, hmd5, hst⟩
        cases hblk : seaBuildBlock fs irodsDest bpMtime b with
        | error e =>
          have he := seaBuildBlock_wf_error fs irodsDest bpMtime b h1 h2 e hblk
          simp only [seaBuildJobs, hb, if_false, hblk, he]
        | ok js =>
          simp only [seaBuildJobs, hb, if_false, hblk, hrest, Except.map]

/-- C9: in blueprint mode, when every command block names exactly one distinct
existing source and one distinct destination token, and some block whose
source is not a checksum sidecar has a source file strictly newer than the
blueprint file, the whole build fails with the staleness `ValueError` (the
spec's `StaleInputError`) and no job set is produced. -/
theorem c9_theorem (fs : SeaFS) (irodsDest : String) (bpMtime : Nat)
    (blocks : List String)
    (hwf : ∀ b ∈ blocks, b ≠ "" →
      (seaSourceList fs b).dedup.length = 1 ∧ (seaDestList b).dedup.length = 1)
    (hstale : ∃ b ∈ blocks, b ≠ "" ∧
      pySuffix ((seaSourceList fs b).headD "") ≠ ".md5" ∧
      bpMtime < ((fs ((seaSourceList fs b).headD "")).getD (0, 0)).1) :
    seaBuildJobsAll fs irodsDest bpMtime blocks = .error .staleInput := by
  unfold seaBuildJobsAll
  rw [seaBuildJobs_stale fs irodsDest bpMtime blocks hwf hstale]
  rfl

/-- Witness for C9: one well-formed block whose source `a.txt` (mtime 10) is
newer than the blueprint (mtime 3). -/
theorem c9_witness :
    seaBuildJobsAll (fun s => if s = "a.txt" then some (10, 5) else none)
        "/dest/coll" 3 ["irsync a.txt i:__SODAR__/x/a.txt"] =
      .error .staleInput :=
  c9_theorem (fun s => if s = "a.txt" then some (10, 5) else none)
    "/dest/coll" 3 ["irsync a.txt i:__SODAR__/x/a.txt"]
    (by decide)
    ⟨"irsync a.txt i:__SODAR__/x/a.txt", by decide, by decide, by decide, by decide⟩

end CubiTk
